import Mathlib

/-!
# Verification of the libchunkstream-cpp core against its specification

Shallow embedding of the chunk-header codec, the sender fragmentation loop,
the receiver routing logic, the receive-completion handler and the fixed-block
memory pool, translated from the C++ sources of the repository
(`chunk_header.h`, `chunk_header.cpp`, `sender.cpp`, `receiver.cpp`,
`memory_pool.cpp`, `receiving_frame.cpp`).

Machine integers are modelled as `Nat`/`Int` with explicit reductions modulo
`2^16`, `2^32` and `2^64` at the points where the C++ code converts or may
wrap.
-/

namespace Chunkstream

/-! ## C++ struct layout of `ChunkHeader`

`chunk_header.h` declares

```
struct ChunkHeader {
  uint32_t id;
  uint32_t total_size;
  uint16_t total_chunks;
  uint16_t chunk_index;
  uint32_t chunk_size;
  uint16_t transmission_type;
};
const size_t CHUNKHEADER_SIZE = sizeof(ChunkHeader);
```

with no packing pragma or attribute.  `sizeof` therefore follows the
platform ABI's natural-alignment layout (the rule is the same on the
Itanium/System V and MSVC ABIs targeted by this repository): each field is
placed at the next offset aligned to its own alignment, and the struct size
is the end offset rounded up to the largest field alignment.  We embed that
layout computation and instantiate it at the declared field list. -/

/-- Round `o` up to the next multiple of the alignment `a`. -/
def alignUp (o a : Nat) : Nat := ((o + a - 1) / a) * a

/-- End offset after laying out fields (size, alignment) in declaration
order, starting at offset `o`: each field is placed at its offset rounded up
to its alignment. -/
def layoutEnd (o : Nat) : List (Nat × Nat) → Nat
  | [] => o
  | f :: fs => layoutEnd (alignUp o f.2 + f.1) fs

/-- Struct size under natural alignment: the end offset of the last field,
rounded up to the largest field alignment. -/
def structSize (fields : List (Nat × Nat)) : Nat :=
  alignUp (layoutEnd 0 fields) ((fields.map Prod.snd).foldr Nat.max 1)

/-- The six fields of `struct ChunkHeader`, in declaration order, as
(size, alignment) pairs: `uint32_t` is 4-byte sized and aligned, `uint16_t`
2-byte sized and aligned on every platform this repository targets. -/
def chunkHeaderFields : List (Nat × Nat) :=
  [(4, 4), (4, 4), (2, 2), (2, 2), (4, 4), (2, 2)]

/-- `CHUNKHEADER_SIZE = sizeof(ChunkHeader)` from `chunk_header.h`. -/
def CHUNKHEADER_SIZE : Nat := structSize chunkHeaderFields

/-- The number of bytes of actual field data in a `ChunkHeader` (the sum of
the declared field widths, without padding). -/
def chunkHeaderFieldBytes : Nat := (chunkHeaderFields.map Prod.fst).sum

/-! ## Chunk header record and the endianness conversions

`chunk_header.cpp` converts every numeric field individually with
`htonl`/`htons`/`ntohl`/`ntohs`.  On the wire the fields are big-endian; on a
little-endian host all four functions are the byte-swap of their operand, and
`ntohl`/`ntohs` are by definition the inverses of `htonl`/`htons` on every
host.  We model the little-endian implementation (pure byte swap). -/

/-- `htons`/`ntohs`: swap the two bytes of a 16-bit value. -/
def bswap16 (x : Nat) : Nat := (x % 256) * 256 + (x / 256) % 256

/-- `htonl`/`ntohl`: reverse the four bytes of a 32-bit value. -/
def bswap32 (x : Nat) : Nat :=
  (x % 256) * 16777216 + (x / 256 % 256) * 65536 +
    (x / 65536 % 256) * 256 + x / 16777216 % 256

/-- The `ChunkHeader` record of `chunk_header.h`; fields carry their C++
width as a validity predicate below. -/
structure ChunkHeader where
  id : Nat
  total_size : Nat
  total_chunks : Nat
  chunk_index : Nat
  chunk_size : Nat
  transmission_type : Nat
  deriving Repr, DecidableEq

/-- Every field is in range of its declared C++ integer type. -/
def ChunkHeader.Valid (h : ChunkHeader) : Prop :=
  h.id < 2 ^ 32 ∧ h.total_size < 2 ^ 32 ∧ h.total_chunks < 2 ^ 16 ∧
    h.chunk_index < 2 ^ 16 ∧ h.chunk_size < 2 ^ 32 ∧ h.transmission_type < 2 ^ 16

instance (h : ChunkHeader) : Decidable h.Valid := by
  unfold ChunkHeader.Valid; infer_instance

/-- `HostToNetwork` from `chunk_header.cpp`: byte-swap every field. -/
def HostToNetwork (h : ChunkHeader) : ChunkHeader :=
  { id := bswap32 h.id
    total_size := bswap32 h.total_size
    total_chunks := bswap16 h.total_chunks
    chunk_index := bswap16 h.chunk_index
    chunk_size := bswap32 h.chunk_size
    transmission_type := bswap16 h.transmission_type }

/-- `NetworkToHost` from `chunk_header.cpp`: byte-swap every field. -/
def NetworkToHost (h : ChunkHeader) : ChunkHeader :=
  { id := bswap32 h.id
    total_size := bswap32 h.total_size
    total_chunks := bswap16 h.total_chunks
    chunk_index := bswap16 h.chunk_index
    chunk_size := bswap32 h.chunk_size
    transmission_type := bswap16 h.transmission_type }

/-! ## Sender fragmentation (`Sender::Send`, sender.cpp)

```
header.total_size = static_cast<uint32_t>(size);
header.total_chunks = static_cast<uint16_t>((header.total_size + PAYLOAD - 1) / PAYLOAD);
for (int i = 0; i < header.total_chunks; i++) {
  header.chunk_index = static_cast<uint16_t>(i);
  const int remaining = header.total_size - (i * PAYLOAD);
  header.chunk_size = static_cast<uint32_t>(min(PAYLOAD, remaining));
  ...
}
```

`total_size` is `uint32_t`, `PAYLOAD` an `int` member, `remaining` an `int`,
so the arithmetic runs modulo `2^32` with a signed reinterpretation of
`remaining`; `total_chunks` is truncated to `uint16_t`.  We embed those
conversions explicitly. -/

/-- Reduction to `uint32_t`. -/
def toUInt32n (n : Nat) : Nat := n % 4294967296

/-- Reduction to `uint16_t`. -/
def toUInt16n (n : Nat) : Nat := n % 65536

/-- Reinterpret a `uint32_t` bit pattern as the C++ `int` (two's
complement). -/
def toInt32ofUInt32 (n : Nat) : Int :=
  if n < 2147483648 then (n : Int) else (n : Int) - 4294967296

/-- The source's own `min` template from sender.cpp:
`return !(b<a)?a:b;`. -/
def cppMin (a b : Int) : Int := if ¬ b < a then a else b

/-- `PAYLOAD = MTU - 20 - 8 - CHUNKHEADER_SIZE` from the Sender and Receiver
constructors (IPv4 header, UDP header, chunk header). -/
def PAYLOAD (mtu : Nat) : Nat := mtu - 20 - 8 - CHUNKHEADER_SIZE

/-- `header.total_chunks` as computed by `Sender::Send`: the ceiling divide
runs in `uint32_t` (the `+ PAYLOAD - 1` may wrap) and the result is cast to
`uint16_t`. -/
def sendTotalChunks (P size : Nat) : Nat :=
  toUInt16n (toUInt32n (toUInt32n size + P + 4294967295) / P)

/-- `header.chunk_size` for chunk `i` as computed by `Sender::Send`:
`remaining` is the `int` reinterpretation of `total_size - i*PAYLOAD`
(computed modulo `2^32`), and `chunk_size` is `min(PAYLOAD, remaining)` cast
back to `uint32_t`. -/
def sendChunkSize (P size i : Nat) : Nat :=
  let remaining : Int :=
    toInt32ofUInt32 ((toUInt32n size + 4294967296 - toUInt32n (i * P)) % 4294967296)
  ((cppMin (P : Int) remaining) % 4294967296).toNat

/-- The sizes of the chunks emitted by one `Sender::Send(data, size)` call,
in loop order. -/
def sendChunkSizes (P size : Nat) : List Nat :=
  (List.range (sendTotalChunks P size)).map (sendChunkSize P size)

/-- The slot ring allocated by the `Sender` constructor: `buffer_size` slots
are created only under `if (max_data_size > 0)`; otherwise `buffer_` stays
empty.  `Sender::Send` divides by this value in
`buffer_index_.fetch_add(1) % buffer_.size()`. -/
def senderBufferSize (buffer_size max_data_size : Nat) : Nat :=
  if 0 < max_data_size then buffer_size else 0

/-! ## Memory pool (`memory_pool.cpp`)

The pool owns a contiguous arena `pool_` of `BLOCK_SIZE * BUFFER_SIZE`
bytes and a stack `free_blocks_` of free block indices.  The constructor
pushes indices `buffer_size-1 … 0`, so index 0 ends on top.  `Acquire` pops
the top index and returns `pool_.data() + idx * BLOCK_SIZE`; `Release`
recovers the index from the pointer (`size_t` arithmetic, i.e. modulo
`2^64`), validates alignment and range, and pushes it.  We model pointers
as 64-bit addresses with the arena base `base` standing for
`pool_.data()`. -/

structure MemoryPool where
  BUFFER_SIZE : Nat
  BLOCK_SIZE : Nat
  base : Nat
  free_blocks : List Nat
  deriving Repr, DecidableEq

/-- `MemoryPool::MemoryPool(block_size, buffer_size)`: all blocks free,
pushed in descending index order, so the stack top-to-bottom reads
`0, 1, …, buffer_size-1`. -/
def mkMemoryPool (block_size buffer_size base : Nat) : MemoryPool :=
  ⟨buffer_size, block_size, base, List.range buffer_size⟩

/-- `MemoryPool::Acquire`: pop the top free index and return the block
pointer `pool_.data() + idx * BLOCK_SIZE`, or return null (`none`). -/
def MemoryPool.Acquire (p : MemoryPool) : Option Nat × MemoryPool :=
  match p.free_blocks with
  | [] => (none, p)
  | idx :: rest =>
    (some (p.base + idx * p.BLOCK_SIZE), ⟨p.BUFFER_SIZE, p.BLOCK_SIZE, p.base, rest⟩)

/-- The index-recovery-and-validation part of `MemoryPool::Release`:
`offset = ptr - pool_start` (`size_t`, so modulo `2^64`),
`idx = offset / BLOCK_SIZE`; `none` when the pointer is null, unaligned
(`offset % BLOCK_SIZE != 0`) or out of range (`idx >= BUFFER_SIZE`). -/
def relIdx (p : MemoryPool) (ptr : Nat) : Option Nat :=
  if ptr = 0 then none
  else if ((ptr + 18446744073709551616 - p.base) % 18446744073709551616) % p.BLOCK_SIZE ≠ 0 ∨
      p.BUFFER_SIZE ≤ ((ptr + 18446744073709551616 - p.base) % 18446744073709551616) / p.BLOCK_SIZE
    then none
  else some (((ptr + 18446744073709551616 - p.base) % 18446744073709551616) / p.BLOCK_SIZE)

/-- `MemoryPool::Release`: validate the pointer and push its index on the
free stack; invalid pointers are a no-op. -/
def MemoryPool.Release (p : MemoryPool) (ptr : Nat) : MemoryPool :=
  match relIdx p ptr with
  | none => p
  | some idx => ⟨p.BUFFER_SIZE, p.BLOCK_SIZE, p.base, idx :: p.free_blocks⟩

/-- The pool state after `k` consecutive `Acquire` calls. -/
def MemoryPool.acquireState (p : MemoryPool) : Nat → MemoryPool
  | 0 => p
  | k + 1 => ((p.acquireState k).Acquire).2

/-! ## The receive completion handler (`Receiver::__Receive`, receiver.cpp)

```
uint8_t* recv_buf = raw_pool_.Acquire();
...
socket_->async_receive_from(..., [this, recv_buf](error, bytes_transferred) {
  if (error) { std::cerr << ...; }
  if (!error && bytes_transferred >= CHUNKHEADER_SIZE) {
    __HandlePacket(remote_endpoint_, recv_buf);
    raw_pool_.Release(recv_buf);
  }
  if (running_) __Receive();
});
```

The effect of one completion on the raw pool: the block is released only
when the completion succeeded with at least `CHUNKHEADER_SIZE` bytes. -/

/-- Raw-pool effect of one receive completion in `Receiver::__Receive`. -/
def receiveCompletion (raw_pool : MemoryPool) (recv_buf : Nat) (error : Bool)
    (bytes_transferred : Nat) : MemoryPool :=
  if error = false ∧ CHUNKHEADER_SIZE ≤ bytes_transferred then
    raw_pool.Release recv_buf
  else
    raw_pool

/-! ## Pool call traces

To reason about "every pool state reachable by sequences of Acquire and
Release" we give the pool a small trace semantics.  A `PoolState` pairs the
pool with the ghost list `held` of block indices currently held by callers
(returned by `Acquire` and not yet passed back to `Release`). -/

inductive PoolOp where
  | acq : PoolOp
  | rel (ptr : Nat) : PoolOp
  deriving Repr, DecidableEq

structure PoolState where
  pool : MemoryPool
  held : List Nat
  deriving Repr, DecidableEq

/-- One step: `acq` runs `Acquire` (recording a successful block in
`held`), `rel ptr` runs `Release ptr` (removing the index from `held` when
the pointer validates). -/
def poolStep (s : PoolState) : PoolOp → PoolState
  | .acq =>
    match s.pool.free_blocks with
    | [] => s
    | idx :: rest =>
      ⟨⟨s.pool.BUFFER_SIZE, s.pool.BLOCK_SIZE, s.pool.base, rest⟩, idx :: s.held⟩
  | .rel ptr =>
    ⟨s.pool.Release ptr,
      match relIdx s.pool ptr with
      | none => s.held
      | some idx => s.held.erase idx⟩

def poolRun (s : PoolState) (ops : List PoolOp) : PoolState := ops.foldl poolStep s

/-- A `Release` call is well-behaved when its pointer either fails
validation (and is a no-op) or denotes a block currently held by the
caller. -/
def relOk (s : PoolState) (ptr : Nat) : Prop :=
  ∀ idx ∈ relIdx s.pool ptr, idx ∈ s.held

instance (s : PoolState) (ptr : Nat) : Decidable (relOk s ptr) := by
  unfold relOk; infer_instance

/-- A trace is well-formed when every `Release` in it is well-behaved at
the state where it runs (no double-free of a block already back on the
free stack). -/
def WFTrace : PoolState → List PoolOp → Prop
  | _, [] => True
  | s, .acq :: ops => WFTrace (poolStep s .acq) ops
  | s, .rel ptr :: ops => relOk s ptr ∧ WFTrace (poolStep s (.rel ptr)) ops

def WFTrace.dec : (s : PoolState) → (ops : List PoolOp) → Decidable (WFTrace s ops)
  | _, [] => .isTrue trivial
  | s, .acq :: ops => WFTrace.dec (poolStep s .acq) ops
  | s, .rel ptr :: ops =>
    @instDecidableAnd _ _ inferInstance (WFTrace.dec (poolStep s (.rel ptr)) ops)

instance (s : PoolState) (ops : List PoolOp) : Decidable (WFTrace s ops) :=
  WFTrace.dec s ops

/-- The pool invariant of the specification: the free stack holds no
duplicate index, held blocks are pairwise distinct, no block is both free
and held, and every block of the arena is exactly one of the two. -/
def PoolInv (n : Nat) (s : PoolState) : Prop :=
  s.pool.BUFFER_SIZE = n ∧
    s.pool.free_blocks.Nodup ∧ s.held.Nodup ∧
    (∀ b ∈ s.pool.free_blocks, b ∉ s.held) ∧
    (∀ b, b < n ↔ (b ∈ s.pool.free_blocks ∨ b ∈ s.held))

/-! ## Receiver routing (`Receiver::__HandlePacket`, receiver.cpp) and the
per-frame state touched by it (`receiving_frame.cpp`)

`__HandlePacket` decodes the header and routes:

```
if (assembling_queue_.empty()
    || (!assembling_queue_.find(header.id) && header.transmission_type == 0)) {
  while (!dropped_queue_.empty()) { ... erase ... release ... }
  uint8_t* data_pool_starting = data_pool_.Acquire();
  if (data_pool_starting) {
    auto frame_ptr = std::make_shared<ReceivingFrame>(..., header.id, header.total_chunks, ...);
    assembling_queue_.push_back(header.id, frame_ptr);
    frame_ptr->AddChunk(header, recv_buf + CHUNKHEADER_SIZE);
  } else { ... drop ... }
} else {
  auto* frame_ptr = assembling_queue_.find(header.id);
  if (frame_ptr && *frame_ptr && !(*frame_ptr)->IsTimeout()
      && !(*frame_ptr)->IsChunkAdded(header.chunk_index)) {
    (*frame_ptr)->AddChunk(header, recv_buf + CHUNKHEADER_SIZE);
  } else { /* drop */ }
}
```

No branch compares `chunk_index` with `total_chunks`.
`ReceivingFrame::IsChunkAdded` reads `chunk_bitmap_[chunk_index]` and
`ReceivingFrame::AddChunk` writes it (with only a debug `assert` on the
bound), so an out-of-range index is an out-of-bounds access; we model both
with `Option`, `none` marking the undefined access. -/

structure ReceivingFrame where
  ID : Nat
  total_chunks : Nat
  chunk_bitmap : List Bool
  request_timeout : Bool
  status : Nat
  deriving Repr, DecidableEq

/-- The `ReceivingFrame` constructor: status `ASSEMBLING` (0), bitmap of
`total_chunks` cleared bits, timers idle. -/
def mkReceivingFrame (id total_chunks : Nat) : ReceivingFrame :=
  ⟨id, total_chunks, List.replicate total_chunks false, false, 0⟩

/-- `ReceivingFrame::IsChunkAdded`: the unchecked `chunk_bitmap_[chunk_index]`
read; `none` when the index is out of range (undefined behaviour in the
C++). -/
def ReceivingFrame.IsChunkAdded (f : ReceivingFrame) (chunk_index : Nat) : Option Bool :=
  f.chunk_bitmap[chunk_index]?

/-- The bitmap-and-status effect of `ReceivingFrame::AddChunk`: set
`chunk_bitmap_[chunk_index]`, and if every bit is now set transition to
`READY` (2); `none` when `chunk_index` is outside the bitmap (the C++
asserts `header.chunk_index < chunk_bitmap_.size()` and the release build
writes out of bounds). -/
def ReceivingFrame.AddChunk (f : ReceivingFrame) (h : ChunkHeader) : Option ReceivingFrame :=
  if h.chunk_index < f.chunk_bitmap.length then
    some
      { f with
        chunk_bitmap := f.chunk_bitmap.set h.chunk_index true
        status :=
          if (f.chunk_bitmap.set h.chunk_index true).all (fun b => b) then 2 else f.status }
  else none

/-- What one `__HandlePacket` call did, as observed from outside. -/
inductive HandleAction where
  | createdFrame (id total_chunks chunk_index : Nat)
  | addedToExisting (id chunk_index : Nat)
  | droppedPacket
  | bufferOverflow
  deriving Repr, DecidableEq

/-- `assembling_queue_.find(id)` over the insertion-ordered entries. -/
def lookupFrame (q : List (Nat × ReceivingFrame)) (id : Nat) : Option ReceivingFrame :=
  (q.find? (fun e => e.1 == id)).map Prod.snd

/-- `assembling_queue_.erase(id)`: remove the entry with that key. -/
def eraseKey (q : List (Nat × ReceivingFrame)) (id : Nat) : List (Nat × ReceivingFrame) :=
  q.eraseP (fun e => e.1 == id)

/-- In-place mutation of the found frame, as done through the shared
pointer in the existing-entry branch. -/
def updateFrame (q : List (Nat × ReceivingFrame)) (id : Nat) (f : ReceivingFrame) :
    List (Nat × ReceivingFrame) :=
  q.map (fun e => if e.1 == id then (e.1, f) else e)

/-- `Receiver::__HandlePacket`: the routing decision and its effect on the
assembling queue.  `dropped` is the pending `dropped_queue_` of frame ids
(drained in the new-frame branch), `data_pool_avail` tells whether
`data_pool_.Acquire()` returns a block.  The second component is the
resulting queue, `none` when the call performed an out-of-range bitmap
access (undefined behaviour in the C++). -/
def handlePacket (q : List (Nat × ReceivingFrame)) (dropped : List Nat)
    (data_pool_avail : Bool) (h : ChunkHeader) :
    HandleAction × Option (List (Nat × ReceivingFrame)) :=
  if q = [] ∨ (lookupFrame q h.id = none ∧ h.transmission_type = 0) then
    let q1 := dropped.foldl eraseKey q
    if data_pool_avail then
      match (mkReceivingFrame h.id h.total_chunks).AddChunk h with
      | some f1 =>
        (.createdFrame h.id h.total_chunks h.chunk_index, some (q1 ++ [(h.id, f1)]))
      | none => (.createdFrame h.id h.total_chunks h.chunk_index, none)
    else (.bufferOverflow, some q1)
  else
    match lookupFrame q h.id with
    | some f =>
      if f.request_timeout = false then
        match f.IsChunkAdded h.chunk_index with
        | some false =>
          match f.AddChunk h with
          | some f1 => (.addedToExisting h.id h.chunk_index, some (updateFrame q h.id f1))
          | none => (.addedToExisting h.id h.chunk_index, none)
        | some true => (.droppedPacket, some q)
        | none => (.droppedPacket, none)
      else (.droppedPacket, some q)
    | none => (.droppedPacket, some q)

end Chunkstream

/-! ## Supporting lemmas -/

namespace Chunkstream
theorem fourBytes_b0 (a b c d : Nat) (hd : d < 256) :
    (a * 16777216 + b * 65536 + c * 256 + d) % 256 = d := by omega

theorem fourBytes_b1 (a b c d : Nat) (hc : c < 256) (hd : d < 256) :
    (a * 16777216 + b * 65536 + c * 256 + d) / 256 % 256 = c := by omega

theorem fourBytes_b2 (a b c d : Nat) (hb : b < 256) (hc : c < 256) (hd : d < 256) :
    (a * 16777216 + b * 65536 + c * 256 + d) / 65536 % 256 = b := by omega

theorem fourBytes_b3 (a b c d : Nat) (ha : a < 256) (hb : b < 256) (hc : c < 256)
    (hd : d < 256) : (a * 16777216 + b * 65536 + c * 256 + d) / 16777216 % 256 = a := by
  omega

theorem bswap16_bswap16 {x : Nat} (hx : x < 2 ^ 16) : bswap16 (bswap16 x) = x := by
  obtain ⟨b0, b1, hb0, hb1, hdec⟩ :
      ∃ b0 b1, b0 < 256 ∧ b1 < 256 ∧ x = b0 + b1 * 256 :=
    ⟨x % 256, x / 256, Nat.mod_lt _ (by norm_num), by omega, by omega⟩
  subst hdec
  unfold bswap16
  have h0 : (b0 + b1 * 256) % 256 = b0 := by omega
  have h1 : (b0 + b1 * 256) / 256 % 256 = b1 := by omega
  rw [h0, h1]
  have g0 : (b0 * 256 + b1) % 256 = b1 := by omega
  have g1 : (b0 * 256 + b1) / 256 % 256 = b0 := by omega
  rw [g0, g1]
  ring

theorem bswap32_bswap32 {x : Nat} (hx : x < 2 ^ 32) : bswap32 (bswap32 x) = x := by
  obtain ⟨b0, b1, b2, b3, hb0, hb1, hb2, hb3, hdec⟩ :
      ∃ b0 b1 b2 b3, b0 < 256 ∧ b1 < 256 ∧ b2 < 256 ∧ b3 < 256 ∧
        x = b0 + b1 * 256 + b2 * 65536 + b3 * 16777216 :=
    ⟨x % 256, x / 256 % 256, x / 65536 % 256, x / 16777216,
      Nat.mod_lt _ (by norm_num), Nat.mod_lt _ (by norm_num),
      Nat.mod_lt _ (by norm_num), by omega, by omega⟩
  subst hdec
  unfold bswap32
  have hper : b0 + b1 * 256 + b2 * 65536 + b3 * 16777216 =
      b3 * 16777216 + b2 * 65536 + b1 * 256 + b0 := by ring
  rw [hper, fourBytes_b0 _ _ _ _ hb0, fourBytes_b1 _ _ _ _ hb1 hb0,
    fourBytes_b2 _ _ _ _ hb2 hb1 hb0, fourBytes_b3 _ _ _ _ hb3 hb2 hb1 hb0,
    fourBytes_b0 _ _ _ _ hb3, fourBytes_b1 _ _ _ _ hb2 hb3,
    fourBytes_b2 _ _ _ _ hb1 hb2 hb3, fourBytes_b3 _ _ _ _ hb0 hb1 hb2 hb3]

/-- Round-trip of the per-field conversions: converting every numeric field
to network byte order and back is the identity on headers whose fields fit
their declared widths. -/
theorem networkToHost_hostToNetwork (h : ChunkHeader) (hv : h.Valid) :
    NetworkToHost (HostToNetwork h) = h := by
  obtain ⟨h1, h2, h3, h4, h5, h6⟩ := hv
  unfold NetworkToHost HostToNetwork
  cases h
  simp only [ChunkHeader.mk.injEq]
  refine ⟨bswap32_bswap32 h1, bswap32_bswap32 h2, bswap16_bswap16 h3,
    bswap16_bswap16 h4, bswap32_bswap32 h5, bswap16_bswap16 h6⟩

/-- In the overflow-free regime the `uint16_t` `total_chunks` is the exact
ceiling `⌈size / P⌉`. -/
theorem sendTotalChunks_eq (P size : Nat) (hP : 0 < P) (hP31 : P < 2147483648)
    (hsz : size < 2147483648) (htc : (size + P - 1) / P < 65536) :
    sendTotalChunks P size = (size + P - 1) / P := by
  unfold sendTotalChunks toUInt16n toUInt32n
  have h1 : size % 4294967296 = size := Nat.mod_eq_of_lt (by omega)
  rw [h1]
  have h2 : (size + P + 4294967295) % 4294967296 = size + P - 1 := by omega
  rw [h2]
  exact Nat.mod_eq_of_lt htc

/-- In the overflow-free regime chunk `i` carries
`min(PAYLOAD, size - i·PAYLOAD)` exactly. -/
theorem sendChunkSize_eq (P size i : Nat) (hP31 : P < 2147483648)
    (hsz : size < 2147483648) (hi : i * P < size) :
    sendChunkSize P size i = min P (size - i * P) := by
  unfold sendChunkSize toUInt32n toInt32ofUInt32 cppMin
  have h1 : size % 4294967296 = size := Nat.mod_eq_of_lt (by omega)
  have h2 : i * P % 4294967296 = i * P := Nat.mod_eq_of_lt (by omega)
  rw [h1, h2]
  have h3 : (size + 4294967296 - i * P) % 4294967296 = size - i * P := by omega
  rw [h3]
  have h4 : size - i * P < 2147483648 := by omega
  rw [if_pos h4]
  dsimp only
  split <;> omega

/-- Bounds tying the ceiling `⌈size / P⌉` to `size`: the last chunk starts
strictly inside the payload and all chunks together cover it. -/
theorem send_ceil_bounds (P size : Nat) (hP : 0 < P) (hsz : 1 ≤ size) :
    ((size + P - 1) / P - 1) * P < size ∧ size ≤ (size + P - 1) / P * P ∧
      1 ≤ (size + P - 1) / P := by
  have h1 : 1 ≤ (size + P - 1) / P := (Nat.one_le_div_iff hP).2 (by omega)
  have h2 := Nat.div_add_mod (size + P - 1) P
  have h3 : (size + P - 1) % P < P := Nat.mod_lt _ hP
  have h4 : ((size + P - 1) / P - 1) * P = (size + P - 1) / P * P - 1 * P :=
    Nat.sub_mul _ _ _
  have h5 : P * ((size + P - 1) / P) = (size + P - 1) / P * P := Nat.mul_comm _ _
  refine ⟨?_, ?_, h1⟩ <;> omega

/-- The per-chunk minima sum to `min (n·P) size` over any prefix of the
chunk loop. -/
theorem sum_min_chunks (P size : Nat) :
    ∀ n, ((List.range n).map (fun i => min P (size - i * P))).sum = min (n * P) size := by
  intro n
  induction n with
  | zero => simp
  | succ n ih =>
    rw [List.range_succ, List.map_append, List.sum_append]
    simp only [List.map_cons, List.map_nil, List.sum_cons, List.sum_nil]
    rw [ih]
    have e : (n + 1) * P = n * P + P := by ring
    omega

/-- `Acquire` returns the pointer of the top free index, when there is
one. -/
theorem Acquire_fst (p : MemoryPool) :
    (p.Acquire).1 = p.free_blocks.head?.map (fun idx => p.base + idx * p.BLOCK_SIZE) := by
  obtain ⟨n, bs, b, l⟩ := p
  cases l <;> rfl

/-- `k` consecutive `Acquire` calls pop the first `k` entries of the free
stack and change nothing else. -/
theorem acquireState_eq (p : MemoryPool) (k : Nat) :
    p.acquireState k = ⟨p.BUFFER_SIZE, p.BLOCK_SIZE, p.base, p.free_blocks.drop k⟩ := by
  induction k with
  | zero => rfl
  | succ k ih =>
    show ((p.acquireState k).Acquire).2 = _
    rw [ih, ← List.tail_drop]
    rcases hd : p.free_blocks.drop k with _ | ⟨x, xs⟩ <;> rfl

/-- A pointer previously handed out by `Acquire` passes `Release`'s
validation and recovers its own block index. -/
theorem relIdx_valid (p : MemoryPool) (j : Nat) (hbs : 0 < p.BLOCK_SIZE)
    (hbase : 0 < p.base) (hj : j < p.BUFFER_SIZE)
    (harena : p.base + p.BUFFER_SIZE * p.BLOCK_SIZE ≤ 2 ^ 64) :
    relIdx p (p.base + j * p.BLOCK_SIZE) = some j := by
  have hmul : j * p.BLOCK_SIZE ≤ p.BUFFER_SIZE * p.BLOCK_SIZE :=
    Nat.mul_le_mul_right _ (le_of_lt hj)
  unfold relIdx
  rw [if_neg (by omega)]
  have hoff : (p.base + j * p.BLOCK_SIZE + 18446744073709551616 - p.base) %
      18446744073709551616 = j * p.BLOCK_SIZE := by omega
  rw [hoff, Nat.mul_mod_left, Nat.mul_div_cancel _ hbs, if_neg (by omega)]

/-- Releasing a block pointer previously handed out pushes its index back
on top of the free stack. -/
theorem Release_valid (p : MemoryPool) (j : Nat) (hbs : 0 < p.BLOCK_SIZE)
    (hbase : 0 < p.base) (hj : j < p.BUFFER_SIZE)
    (harena : p.base + p.BUFFER_SIZE * p.BLOCK_SIZE ≤ 2 ^ 64) :
    p.Release (p.base + j * p.BLOCK_SIZE) =
      ⟨p.BUFFER_SIZE, p.BLOCK_SIZE, p.base, j :: p.free_blocks⟩ := by
  unfold MemoryPool.Release
  rw [relIdx_valid p j hbs hbase hj harena]

/-- `Release` of a null, out-of-arena or unaligned pointer leaves the pool
unchanged. -/
theorem Release_invalid (p : MemoryPool) (ptr : Nat) (hbs : 0 < p.BLOCK_SIZE)
    (harena : p.base + p.BUFFER_SIZE * p.BLOCK_SIZE ≤ 2 ^ 64)
    (hptr : ptr < 2 ^ 64)
    (hinv : ptr = 0 ∨ ptr < p.base ∨ p.base + p.BUFFER_SIZE * p.BLOCK_SIZE ≤ ptr ∨
      (p.base ≤ ptr ∧ (ptr - p.base) % p.BLOCK_SIZE ≠ 0)) :
    p.Release ptr = p := by
  have hrel : relIdx p ptr = none := by
    unfold relIdx
    rcases Nat.eq_zero_or_pos ptr with h0 | h0
    · rw [if_pos h0]
    rw [if_neg (by omega), if_pos]
    rcases hinv with hz | hlt | hge | ⟨hin, hal⟩
    · omega
    · right
      have hoff : (ptr + 18446744073709551616 - p.base) % 18446744073709551616 =
          18446744073709551616 - (p.base - ptr) := by omega
      rw [hoff, Nat.le_div_iff_mul_le hbs]
      omega
    · right
      have hoff : (ptr + 18446744073709551616 - p.base) % 18446744073709551616 =
          ptr - p.base := by omega
      rw [hoff, Nat.le_div_iff_mul_le hbs]
      omega
    · left
      have hoff : (ptr + 18446744073709551616 - p.base) % 18446744073709551616 =
          ptr - p.base := by omega
      rw [hoff]
      exact hal
  unfold MemoryPool.Release
  rw [hrel]

/-- One well-behaved step preserves the pool invariant. -/
theorem poolStep_inv (n : Nat) (s : PoolState) (op : PoolOp) (hinv : PoolInv n s)
    (hwf : ∀ ptr, op = .rel ptr → relOk s ptr) : PoolInv n (poolStep s op) := by
  obtain ⟨hn, hfn, hhn, hdisj, hcov⟩ := hinv
  cases op with
  | acq =>
    rcases hfb : s.pool.free_blocks with _ | ⟨idx, rest⟩
    · have hstep : poolStep s .acq = s := by
        simp [poolStep, hfb]
      rw [hstep]
      exact ⟨hn, hfn, hhn, hdisj, hcov⟩
    · rw [hfb] at hfn hdisj hcov
      obtain ⟨hni, hnr⟩ := List.nodup_cons.mp hfn
      have hstep : poolStep s .acq =
          ⟨⟨s.pool.BUFFER_SIZE, s.pool.BLOCK_SIZE, s.pool.base, rest⟩, idx :: s.held⟩ := by
        simp [poolStep, hfb]
      rw [hstep]
      refine ⟨hn, hnr, ?_, ?_, ?_⟩
      · exact List.nodup_cons.mpr ⟨hdisj idx (by simp), hhn⟩
      · intro b hb
        have h1 : b ∈ idx :: rest := by simp [hb]
        have h2 := hdisj b h1
        have h3 : b ≠ idx := fun he => hni (he ▸ hb)
        simp [List.mem_cons, h3, h2]
      · intro b
        have := hcov b
        simp only [List.mem_cons] at this ⊢
        tauto
  | rel ptr =>
    have hok : relOk s ptr := hwf ptr rfl
    rcases hrel : relIdx s.pool ptr with _ | idx
    · have hpool : s.pool.Release ptr = s.pool := by
        unfold MemoryPool.Release
        rw [hrel]
      refine ⟨?_, ?_, ?_, ?_, ?_⟩ <;> simp only [poolStep, hrel, hpool] <;>
        first
        | exact hn
        | exact hfn
        | exact hhn
        | exact hdisj
        | exact hcov
    · have hheld : idx ∈ s.held := hok idx (by simp [hrel])
      have hidxf : idx ∉ s.pool.free_blocks := fun hm => hdisj idx hm hheld
      have hpool : s.pool.Release ptr =
          ⟨s.pool.BUFFER_SIZE, s.pool.BLOCK_SIZE, s.pool.base, idx :: s.pool.free_blocks⟩ := by
        unfold MemoryPool.Release
        rw [hrel]
      refine ⟨?_, ?_, ?_, ?_, ?_⟩ <;> simp only [poolStep, hrel, hpool]
      · exact hn
      · exact List.nodup_cons.mpr ⟨hidxf, hfn⟩
      · exact hhn.erase idx
      · intro b hb
        rcases List.mem_cons.mp hb with hbi | hbf
        · subst hbi
          intro hbe
          exact ((hhn.mem_erase_iff.mp hbe).1) rfl
        · intro hbe
          exact hdisj b hbf (List.mem_of_mem_erase hbe)
      · intro b
        rw [hcov b]
        constructor
        · rintro (hbf | hbh)
          · exact Or.inl (List.mem_cons_of_mem _ hbf)
          · by_cases hbi : b = idx
            · exact Or.inl (by simp [hbi])
            · exact Or.inr (hhn.mem_erase_iff.mpr ⟨hbi, hbh⟩)
        · rintro (hbf | hbh)
          · rcases List.mem_cons.mp hbf with hbi | hbf
            · exact Or.inr (hbi ▸ hheld)
            · exact Or.inl hbf
          · exact Or.inr (List.mem_of_mem_erase hbh)

/-- A well-formed trace preserves the pool invariant end to end. -/
theorem poolRun_inv (n : Nat) :
    ∀ (ops : List PoolOp) (s : PoolState), PoolInv n s → WFTrace s ops →
      PoolInv n (poolRun s ops) := by
  intro ops
  induction ops with
  | nil => exact fun s h _ => h
  | cons op ops ih =>
    intro s hinv hwf
    show PoolInv n (poolRun (poolStep s op) ops)
    cases op with
    | acq => exact ih _ (poolStep_inv n s .acq hinv (by intro _ h; cases h)) hwf
    | rel ptr =>
      exact ih _ (poolStep_inv n s (.rel ptr) hinv
        (by intro q h; cases h; exact hwf.1)) hwf.2

/-- The invariant holds in the freshly constructed pool. -/
theorem poolInv_init (block_size buffer_size base : Nat) :
    PoolInv buffer_size ⟨mkMemoryPool block_size buffer_size base, []⟩ := by
  refine ⟨rfl, List.nodup_range buffer_size, List.nodup_nil, ?_, ?_⟩
  · intro b _ hb
    cases hb
  · intro b
    simp [mkMemoryPool, List.mem_range]

end Chunkstream

/-! ## Claim C1 -/

/-- C1 counterexample: the claim states that the encoded form of
`ChunkHeader` occupies exactly 18 bytes and that `CHUNKHEADER_SIZE = 18`.
In the source `CHUNKHEADER_SIZE = sizeof(ChunkHeader)` with no packing, and
natural-alignment layout of the declared field list gives 20 bytes (2 bytes
of tail padding after the final `uint16_t`), so `CHUNKHEADER_SIZE ≠ 18`. -/
theorem C1_header_size_counterexample :
    Chunkstream.CHUNKHEADER_SIZE = 20 ∧ Chunkstream.CHUNKHEADER_SIZE ≠ 18 := by
  constructor
  · rfl
  · decide

/-- C1 (amended): the six declared fields of `ChunkHeader` carry 18 bytes of
data, but the struct is not packed, so `CHUNKHEADER_SIZE = sizeof(ChunkHeader)`
is 20 under the natural-alignment ABI rule (18 field bytes plus 2 bytes of
tail padding); every sender and receiver delimits header from payload at 20
bytes, not 18. -/
theorem C1_header_size_amended :
    Chunkstream.chunkHeaderFieldBytes = 18 ∧ Chunkstream.CHUNKHEADER_SIZE = 20 :=
  ⟨rfl, rfl⟩

/-! ## Claim C2 -/

/-- C2: the claim says a datagram with `chunk_index ≥ total_chunks` is
silently dropped and the bitmap is never touched out of range.  The code
has no such check: for every header with `chunk_index ≥ total_chunks`, on
an empty queue the new-frame branch runs (action `createdFrame`) and
forwards the header to `AddChunk`, whose bitmap write at `chunk_index` is
out of range (result `none`); and against an existing entry for the same
id, `IsChunkAdded(chunk_index)` performs the out-of-range bitmap read
(result `none`) before any drop decision. -/
theorem C2_malformed_chunk_not_dropped (h : Chunkstream.ChunkHeader)
    (hmal : h.total_chunks ≤ h.chunk_index) :
    ((Chunkstream.handlePacket [] [] true h).1 =
        .createdFrame h.id h.total_chunks h.chunk_index) ∧
      ((Chunkstream.handlePacket [] [] true h).2 = none) ∧
      ((Chunkstream.handlePacket
          [(h.id, Chunkstream.mkReceivingFrame h.id h.total_chunks)] [] true h).2 =
        none) := by
  have hadd : (Chunkstream.mkReceivingFrame h.id h.total_chunks).AddChunk h = none := by
    unfold Chunkstream.ReceivingFrame.AddChunk Chunkstream.mkReceivingFrame
    rw [if_neg]
    simp only [List.length_replicate]
    omega
  have h1 : Chunkstream.handlePacket [] [] true h =
      (.createdFrame h.id h.total_chunks h.chunk_index, none) := by
    unfold Chunkstream.handlePacket
    rw [if_pos (Or.inl rfl), if_pos rfl, hadd]
  have hlook : Chunkstream.lookupFrame
      [(h.id, Chunkstream.mkReceivingFrame h.id h.total_chunks)] h.id =
      some (Chunkstream.mkReceivingFrame h.id h.total_chunks) := by
    simp [Chunkstream.lookupFrame]
  have hic : (Chunkstream.mkReceivingFrame h.id h.total_chunks).IsChunkAdded
      h.chunk_index = none := by
    unfold Chunkstream.ReceivingFrame.IsChunkAdded Chunkstream.mkReceivingFrame
    exact List.getElem?_eq_none (by simp only [List.length_replicate]; omega)
  have h2 : Chunkstream.handlePacket
      [(h.id, Chunkstream.mkReceivingFrame h.id h.total_chunks)] [] true h =
      (.droppedPacket, none) := by
    unfold Chunkstream.handlePacket
    rw [if_neg (by simp [hlook])]
    simp only [hlook, hic]
    rfl
  exact ⟨by rw [h1], by rw [h1], by rw [h2]⟩

/-- C2 witness: the malformed datagram `{id 7, total_chunks 1,
chunk_index 5, INIT}` is forwarded on both paths. -/
theorem C2_malformed_chunk_not_dropped_witness :
    ((Chunkstream.handlePacket [] [] true ⟨7, 100, 1, 5, 100, 0⟩).1 =
        .createdFrame 7 1 5) ∧
      ((Chunkstream.handlePacket [] [] true ⟨7, 100, 1, 5, 100, 0⟩).2 = none) ∧
      ((Chunkstream.handlePacket [(7, Chunkstream.mkReceivingFrame 7 1)] [] true
          ⟨7, 100, 1, 5, 100, 0⟩).2 = none) :=
  C2_malformed_chunk_not_dropped ⟨7, 100, 1, 5, 100, 0⟩ (by decide)

/-! ## Claim C3 -/

/-- C3 counterexample: the claim quantifies over every `size ≥ 1`, but
`total_chunks` is truncated to `uint16_t`.  At `PAYLOAD = 1452` (MTU 1500)
and `size = 65536 · 1452 = 95158272` the true ceiling is 65536, the stored
`total_chunks` is `65536 % 2^16 = 0`, no chunk is emitted and the chunk
sizes sum to 0, not `size`. -/
theorem C3_fragmentation_counterexample :
    (95158272 + 1452 - 1) / 1452 = 65536 ∧
      Chunkstream.sendTotalChunks 1452 95158272 = 0 ∧
      Chunkstream.sendChunkSizes 1452 95158272 = [] ∧
      (Chunkstream.sendChunkSizes 1452 95158272).sum ≠ 95158272 := by
  refine ⟨by norm_num, by rfl, by rfl, by decide⟩

/-- C3 (amended): for every `Send(data, size)` with `1 ≤ size < 2^31` and
`⌈size / PAYLOAD⌉ ≤ 65535` (so neither the `uint16_t` chunk count nor the
`int` arithmetic overflows), the payload is fragmented into
`total_chunks = ⌈size / PAYLOAD⌉` chunks, chunk `i` carries
`chunk_size = min(PAYLOAD, size − i·PAYLOAD)`, every chunk except possibly
the last has `chunk_size = PAYLOAD`, the last has
`chunk_size = size − (total_chunks−1)·PAYLOAD`, and the chunk sizes sum to
`size`. -/
theorem C3_fragmentation_amended (P size : Nat) (hP : 0 < P)
    (hP31 : P < 2147483648) (hsz : 1 ≤ size) (hsz31 : size < 2147483648)
    (htc : (size + P - 1) / P ≤ 65535) :
    Chunkstream.sendTotalChunks P size = (size + P - 1) / P ∧
      (∀ i < (size + P - 1) / P,
        Chunkstream.sendChunkSize P size i = min P (size - i * P)) ∧
      (∀ i, i + 1 < (size + P - 1) / P → Chunkstream.sendChunkSize P size i = P) ∧
      Chunkstream.sendChunkSize P size ((size + P - 1) / P - 1) =
        size - ((size + P - 1) / P - 1) * P ∧
      (Chunkstream.sendChunkSizes P size).sum = size := by
  obtain ⟨hb1, hb2, hb3⟩ := Chunkstream.send_ceil_bounds P size hP hsz
  have h0 : Chunkstream.sendTotalChunks P size = (size + P - 1) / P :=
    Chunkstream.sendTotalChunks_eq P size hP hP31 hsz31 (by omega)
  have hlt : ∀ i < (size + P - 1) / P, i * P < size := by
    intro i hi
    calc i * P ≤ ((size + P - 1) / P - 1) * P := Nat.mul_le_mul_right P (by omega)
    _ < size := hb1
  have hchunk : ∀ i < (size + P - 1) / P,
      Chunkstream.sendChunkSize P size i = min P (size - i * P) := fun i hi =>
    Chunkstream.sendChunkSize_eq P size i hP31 hsz31 (hlt i hi)
  refine ⟨h0, hchunk, ?_, ?_, ?_⟩
  · intro i hi
    rw [hchunk i (by omega)]
    have e1 : (i + 1) * P = i * P + P := by ring
    have e2 : (i + 1) * P ≤ ((size + P - 1) / P - 1) * P :=
      Nat.mul_le_mul_right P (by omega)
    have := hb1
    omega
  · rw [hchunk _ (by omega)]
    obtain ⟨t, ht⟩ : ∃ t, (size + P - 1) / P = t + 1 := ⟨(size + P - 1) / P - 1, by omega⟩
    rw [ht] at hb2 ⊢
    simp only [Nat.add_sub_cancel]
    have e : (t + 1) * P = t * P + P := by ring
    omega
  · unfold Chunkstream.sendChunkSizes
    rw [h0, List.map_congr_left (fun i hi =>
      hchunk i (List.mem_range.mp hi)), Chunkstream.sum_min_chunks]
    omega

/-- C3 witness: at `PAYLOAD = 1452` and `size = 3000` the loop emits 3
chunks of sizes 1452, 1452, 96 summing to 3000. -/
theorem C3_fragmentation_witness :
    Chunkstream.sendTotalChunks 1452 3000 = 3 ∧
      (Chunkstream.sendChunkSizes 1452 3000).sum = 3000 :=
  ⟨((C3_fragmentation_amended 1452 3000 (by norm_num) (by norm_num) (by norm_num)
      (by norm_num) (by norm_num)).1).trans (by norm_num),
    (C3_fragmentation_amended 1452 3000 (by norm_num) (by norm_num) (by norm_num)
      (by norm_num) (by norm_num)).2.2.2.2⟩

/-! ## Claim C4 -/

/-- C4: for every `ChunkHeader` whose fields are in range of their declared
C++ types, `NetworkToHost (HostToNetwork h) = h`: converting all six numeric
fields to network byte order and back yields the original values. -/
theorem C4_endian_roundtrip (h : Chunkstream.ChunkHeader) (hv : h.Valid) :
    Chunkstream.NetworkToHost (Chunkstream.HostToNetwork h) = h :=
  Chunkstream.networkToHost_hostToNetwork h hv

/-- C4 witness: the round-trip at the maximal field values
(id = 2^32 − 1, total_size = 2^32 − 1, total_chunks = 2^16 − 1,
chunk_index = 2^16 − 1, chunk_size = 2^32 − 1, transmission_type = 1). -/
theorem C4_endian_roundtrip_witness :
    Chunkstream.NetworkToHost (Chunkstream.HostToNetwork
        ⟨4294967295, 4294967295, 65535, 65535, 4294967295, 1⟩) =
      ⟨4294967295, 4294967295, 65535, 65535, 4294967295, 1⟩ :=
  C4_endian_roundtrip ⟨4294967295, 4294967295, 65535, 65535, 4294967295, 1⟩
    (by constructor <;> norm_num)

/-! ## Claim C5 -/

/-- C5: the claim says every raw-pool block acquired by `__Receive` is
released on every completion outcome, including errors and short datagrams.
In the code `raw_pool_.Release(recv_buf)` sits inside
`if (!error && bytes_transferred >= CHUNKHEADER_SIZE)`, so on an error
completion, or one that delivers fewer than `CHUNKHEADER_SIZE` bytes, the
block is never released: with a 1-block raw pool the free stack stays empty
(occupancy does not return to zero), while a successful full-header
completion does release it. -/
theorem C5_raw_block_leaked_on_error :
    (((Chunkstream.mkMemoryPool 1472 1 4096).Acquire).1 = some 4096) ∧
      (Chunkstream.receiveCompletion ((Chunkstream.mkMemoryPool 1472 1 4096).Acquire).2
        4096 true 1472).free_blocks = [] ∧
      (Chunkstream.receiveCompletion ((Chunkstream.mkMemoryPool 1472 1 4096).Acquire).2
        4096 false 10).free_blocks = [] ∧
      (Chunkstream.receiveCompletion ((Chunkstream.mkMemoryPool 1472 1 4096).Acquire).2
        4096 false 20).free_blocks = [0] := by
  decide

/-! ## Claim C6 -/

/-- C6 counterexample: the claim says a frame is created only for a
first-seen INIT chunk, but the routing condition is
`empty() || (!find(id) && type == INIT)`: when the assembling queue is
empty, a RESEND datagram (`transmission_type = 1`) also creates and pushes
a new frame. -/
theorem C6_resend_creates_frame_counterexample :
    ((Chunkstream.handlePacket [] [] true ⟨7, 100, 3, 0, 100, 1⟩).1 =
        .createdFrame 7 3 0) ∧
      (⟨7, 100, 3, 0, 100, 1⟩ : Chunkstream.ChunkHeader).transmission_type = 1 := by
  decide

/-- C6 (amended): whenever `__HandlePacket` constructs and pushes a new
`ReceivingFrame`, the datagram's id has no existing entry in the queue and
the data pool handed out a block; the datagram is an INIT chunk
(`transmission_type = 0`) whenever the queue is non-empty, but an empty
queue admits any transmission type. -/
theorem C6_frame_creation_condition (q : List (Nat × Chunkstream.ReceivingFrame))
    (dropped : List Nat) (dp : Bool) (h : Chunkstream.ChunkHeader) (a b c : Nat)
    (heq : (Chunkstream.handlePacket q dropped dp h).1 = .createdFrame a b c) :
    Chunkstream.lookupFrame q h.id = none ∧
      (q = [] ∨ h.transmission_type = 0) ∧ dp = true ∧
      a = h.id ∧ b = h.total_chunks ∧ c = h.chunk_index := by
  unfold Chunkstream.handlePacket at heq
  by_cases hcond : q = [] ∨ (Chunkstream.lookupFrame q h.id = none ∧ h.transmission_type = 0)
  · rw [if_pos hcond] at heq
    have hlook : Chunkstream.lookupFrame q h.id = none := by
      rcases hcond with hq | hc
      · subst hq
        rfl
      · exact hc.1
    have hcond2 : q = [] ∨ h.transmission_type = 0 := by
      rcases hcond with hq | hc
      · exact Or.inl hq
      · exact Or.inr hc.2
    rcases hdp : dp with _ | _
    · rw [hdp] at heq
      simp only [Bool.false_eq_true, if_false] at heq
      cases heq
    · rw [hdp] at heq
      simp only [if_true] at heq
      rcases hadd : (Chunkstream.mkReceivingFrame h.id h.total_chunks).AddChunk h with _ | f1 <;>
        rw [hadd] at heq <;>
        simp only [Chunkstream.HandleAction.createdFrame.injEq] at heq <;>
        exact ⟨hlook, hcond2, rfl, heq.1.symm, heq.2.1.symm, heq.2.2.symm⟩
  · rw [if_neg hcond] at heq
    rcases hlook : Chunkstream.lookupFrame q h.id with _ | f <;>
        simp only [hlook] at heq
    · cases heq
    · by_cases hto : f.request_timeout = false
      · rw [if_pos hto] at heq
        rcases hic : f.IsChunkAdded h.chunk_index with _ | b' <;>
            simp only [hic] at heq
        · cases heq
        · rcases b' with _ | _
          · rcases hadd : f.AddChunk h with _ | f1 <;> simp only [hadd] at heq <;>
              cases heq
          · cases heq
      · rw [if_neg hto] at heq
        cases heq

/-- C6 witness: a first-seen INIT datagram (id 9, 2 chunks, chunk 1) on an
empty queue creates the frame, and the creation conditions hold. -/
theorem C6_frame_creation_condition_witness :
    Chunkstream.lookupFrame [] (⟨9, 50, 2, 1, 50, 0⟩ : Chunkstream.ChunkHeader).id = none ∧
      (([] : List (Nat × Chunkstream.ReceivingFrame)) = [] ∨
        (⟨9, 50, 2, 1, 50, 0⟩ : Chunkstream.ChunkHeader).transmission_type = 0) ∧
      true = true ∧
      9 = (⟨9, 50, 2, 1, 50, 0⟩ : Chunkstream.ChunkHeader).id ∧
      2 = (⟨9, 50, 2, 1, 50, 0⟩ : Chunkstream.ChunkHeader).total_chunks ∧
      1 = (⟨9, 50, 2, 1, 50, 0⟩ : Chunkstream.ChunkHeader).chunk_index :=
  C6_frame_creation_condition [] [] true ⟨9, 50, 2, 1, 50, 0⟩ 9 2 1 (by decide)

/-! ## Claim C7 -/

/-- C7: `Acquire` returns null exactly when the free stack is empty; after
construction with `buffer_size` blocks the free stack reads
`0, 1, …, buffer_size-1` top to bottom (all blocks free, pushed in
descending index order); the `k`-th consecutive `Acquire` (`k < n`, no
intervening `Release`) returns the block at arena offset `k·BLOCK_SIZE`;
and the discipline is LIFO: after `Release(p)` of a held block pointer the
very next `Acquire` returns `p` again. -/
theorem C7_pool_contract (block_size buffer_size base k j : Nat) (l : List Nat)
    (hbs : 0 < block_size) (hbase : 0 < base)
    (harena : base + buffer_size * block_size ≤ 2 ^ 64)
    (hk : k < buffer_size) (hj : j < buffer_size) :
    (∀ p : Chunkstream.MemoryPool, (p.Acquire).1 = none ↔ p.free_blocks = []) ∧
      (Chunkstream.mkMemoryPool block_size buffer_size base).free_blocks =
        List.range buffer_size ∧
      (((Chunkstream.mkMemoryPool block_size buffer_size base).acquireState k).Acquire).1 =
        some (base + k * block_size) ∧
      ((Chunkstream.MemoryPool.mk buffer_size block_size base l).Release
          (base + j * block_size)).Acquire.1 = some (base + j * block_size) := by
  refine ⟨?_, rfl, ?_, ?_⟩
  · intro p
    rw [Chunkstream.Acquire_fst]
    rcases p.free_blocks with _ | ⟨x, xs⟩ <;> simp
  · rw [Chunkstream.acquireState_eq, Chunkstream.Acquire_fst]
    show (((List.range buffer_size).drop k).head?.map _) = _
    rw [List.head?_drop, List.getElem?_range hk]
    rfl
  · rw [Chunkstream.Release_valid _ j hbs hbase hj harena, Chunkstream.Acquire_fst]
    rfl

/-- C7 witness: a pool of 3 blocks of 4 bytes at base 100: the second
consecutive `Acquire` returns offset 104, and after releasing block 2
(pointer 108) the next `Acquire` returns 108 again. -/
theorem C7_pool_contract_witness :
    ((((Chunkstream.mkMemoryPool 4 3 100).acquireState 1).Acquire).1 = some 104) ∧
      (((Chunkstream.MemoryPool.mk 3 4 100 [0, 2]).Release 108).Acquire.1 = some 108) := by
  have h := C7_pool_contract 4 3 100 1 2 [0, 2] (by norm_num) (by norm_num)
    (by norm_num) (by norm_num) (by norm_num)
  exact ⟨by simpa using h.2.2.1, by simpa using h.2.2.2⟩

/-! ## Claim C8 -/

/-- C8 counterexample: the claim quantifies over all sequences of `Acquire`
and `Release`, but its no-op clause exempts only null, out-of-arena and
unaligned pointers.  `Release` of a valid, aligned, in-arena pointer whose
block is already on the free stack (a double free) is accepted and pushes a
duplicate index: on a fresh 2-block pool (block size 4, arena base 8),
`Release(8)` makes the free stack `[0, 0, 1]`, and the next two `Acquire`
calls both return pointer 8 with no intervening `Release` of it. -/
theorem C8_pool_invariant_counterexample :
    ¬ ((Chunkstream.mkMemoryPool 4 2 8).Release 8).free_blocks.Nodup ∧
      ((((Chunkstream.mkMemoryPool 4 2 8).Release 8).Acquire).1 = some 8) ∧
      (((((Chunkstream.mkMemoryPool 4 2 8).Release 8).Acquire).2.Acquire).1 = some 8) := by
  decide

/-- C8 (amended): in every pool state reachable by a sequence of `Acquire`
and `Release` calls in which each `Release` passes either an invalid
pointer or a pointer currently held by a caller, each block is either on
the free stack or held by exactly one caller — the free stack has no
duplicate index, held blocks are distinct, the two sets are disjoint and
together cover the arena — and `Release` of a null pointer, a pointer
outside the arena, or a pointer not aligned to a block boundary leaves the
pool unchanged. -/
theorem C8_pool_invariant_amended (block_size buffer_size base : Nat)
    (ops : List Chunkstream.PoolOp)
    (hwf : Chunkstream.WFTrace ⟨Chunkstream.mkMemoryPool block_size buffer_size base, []⟩ ops) :
    Chunkstream.PoolInv buffer_size
        (Chunkstream.poolRun ⟨Chunkstream.mkMemoryPool block_size buffer_size base, []⟩ ops) ∧
      ∀ (p : Chunkstream.MemoryPool) (ptr : Nat), 0 < p.BLOCK_SIZE →
        p.base + p.BUFFER_SIZE * p.BLOCK_SIZE ≤ 2 ^ 64 → ptr < 2 ^ 64 →
        (ptr = 0 ∨ ptr < p.base ∨ p.base + p.BUFFER_SIZE * p.BLOCK_SIZE ≤ ptr ∨
          (p.base ≤ ptr ∧ (ptr - p.base) % p.BLOCK_SIZE ≠ 0)) →
        p.Release ptr = p :=
  ⟨Chunkstream.poolRun_inv buffer_size ops _
      (Chunkstream.poolInv_init block_size buffer_size base) hwf,
    fun p ptr h1 h2 h3 h4 => Chunkstream.Release_invalid p ptr h1 h2 h3 h4⟩

/-- C8 witness: the well-formed trace `Acquire; Release(8); Acquire` on a
fresh 2-block pool at base 8 keeps the invariant. -/
theorem C8_pool_invariant_witness :
    Chunkstream.PoolInv 2
      (Chunkstream.poolRun ⟨Chunkstream.mkMemoryPool 4 2 8, []⟩
        [.acq, .rel 8, .acq]) :=
  (C8_pool_invariant_amended 4 2 8 [.acq, .rel 8, .acq] (by decide)).1

/-! ## Claim C9 -/

/-- C9 counterexample: the claim allows only two behaviours for
`Send(data, 0)`: rejection with an error, or exactly one chunk of size 0.
The code does neither: with `size = 0` the chunk loop bound
`total_chunks = ⌈0 / PAYLOAD⌉ = 0`, so no chunk is produced (not one), and
`Send` returns normally with no error path taken (its only outputs are the
datagrams, and there are none). -/
theorem C9_zero_size_counterexample :
    Chunkstream.sendChunkSizes 1452 0 = [] ∧
      (Chunkstream.sendChunkSizes 1452 0).length ≠ 1 := by
  refine ⟨by rfl, by decide⟩

/-- C9 (amended): `Send(data, 0)` silently sends nothing: it computes
`total_chunks = 0`, emits no chunk, and returns normally without signalling
an error (a frame id is still consumed and a slot is claimed with
`ref_count = 0`). -/
theorem C9_zero_size_amended (P : Nat) (hP : 0 < P) (hP31 : P < 2147483648) :
    Chunkstream.sendTotalChunks P 0 = 0 ∧ Chunkstream.sendChunkSizes P 0 = [] := by
  have h0 : Chunkstream.sendTotalChunks P 0 = 0 := by
    unfold Chunkstream.sendTotalChunks Chunkstream.toUInt16n Chunkstream.toUInt32n
    have h1 : (0 % 4294967296 + P + 4294967295) % 4294967296 = P - 1 := by omega
    rw [h1, Nat.div_eq_of_lt (by omega)]
  refine ⟨h0, ?_⟩
  unfold Chunkstream.sendChunkSizes
  rw [h0]
  rfl

/-- C9 witness: the zero-size behaviour at the default MTU's payload. -/
theorem C9_zero_size_witness :
    Chunkstream.sendTotalChunks 1452 0 = 0 ∧ Chunkstream.sendChunkSizes 1452 0 = [] :=
  C9_zero_size_amended 1452 (by norm_num) (by norm_num)

/-! ## Claim C10 -/

/-- C10: with the documented default `max_data_size = 0` the constructor's
`if (max_data_size > 0)` branch is skipped, `buffer_` stays empty, and the
divisor `buffer_.size()` in `Send`'s slot-ring index expression
`buffer_index_.fetch_add(1) % buffer_.size()` is 0 — the claim that the
divisor is nonzero whenever `Send` runs is violated by the code. -/
theorem C10_empty_slot_ring :
    Chunkstream.senderBufferSize 10 0 = 0 := rfl
